import Mathlib

/-!
Verification of the in-memory mock file system (`@mark1russell7/mock-fs`).

The store is a JavaScript `Map<string, MockFsEntry>` keyed by normalized path
strings.  We embed it as an insertion-ordered association list and translate
each operation of `createMockFs` directly from the source.  Timestamps
(`new Date()`) are modelled as natural numbers passed explicitly to each
mutating operation.
-/

namespace MockFs

/-- Entry of the store: `{ type: "file", content?, mtime }` or
`{ type: "directory", mtime }`. -/
inductive MockFsEntry where
  | file (content : Option String) (mtime : Nat)
  | directory (mtime : Nat)
deriving DecidableEq, Repr

/-- The backing `Map<string, MockFsEntry>`, as an insertion-ordered
association list whose keys stay unique under `mapSet`. -/
abbrev Store := List (String × MockFsEntry)

/-- JS `Map.has`. -/
def mapHas (m : Store) (k : String) : Bool := m.any (fun e => e.1 == k)

/-- JS `Map.get` (returns `none` for a missing key). -/
def mapGet (m : Store) (k : String) : Option MockFsEntry :=
  (m.find? (fun e => e.1 == k)).map (fun e => e.2)

/-- JS `Map.set`: updates the value in place when the key is present
(keeping its position in insertion order), otherwise appends the new binding
at the end. -/
def mapSet (m : Store) (k : String) (v : MockFsEntry) : Store :=
  match m with
  | [] => [(k, v)]
  | e :: t => if e.1 == k then (k, v) :: t else e :: mapSet t k v

/-- JS `Map.delete`. -/
def mapDelete (m : Store) (k : String) : Store := m.filter (fun e => e.1 != k)

/-- JS `Map.keys()` in insertion order. -/
def mapKeys (m : Store) : List String := m.map (fun e => e.1)

/-- Source `normalizePath`: `p.split("\\").join("/")` (replace every backslash
with a forward slash), then repeatedly strip a trailing `"/"`. -/
def normalizePath (p : String) : String :=
  String.mk (((p.data.map (fun c => if c == '\\' then '/' else c)).reverse.dropWhile
    (fun c => c == '/')).reverse)

/-- JS `String.prototype.split("/")` on the character list: splits at every
`'/'`, keeping empty segments (`"".split("/")` is `[""]`). -/
def splitSlashChars : List Char → List (List Char)
  | [] => [[]]
  | c :: rest =>
    let r := splitSlashChars rest
    if c == '/' then [] :: r
    else
      match r with
      | h :: t => (c :: h) :: t
      | [] => [[c]]

/-- JS `s.split("/")` as strings. -/
def splitSlash (s : String) : List String := (splitSlashChars s.data).map String.mk

/-- Source `createMockFs` construction: `initialDirs` entries are inserted
first as directories, then `initialFiles` entries as files; `initialFiles`
is the insertion-ordered entry list of the record. -/
def createMockFs (initialDirs : List String) (initialFiles : List (String × String))
    (now : Nat) : Store :=
  let files := initialDirs.foldl (fun m d => mapSet m (normalizePath d) (.directory now)) []
  initialFiles.foldl (fun m fc => mapSet m (normalizePath fc.1) (.file (some fc.2) now)) files

/-- Loop of source `ensureParent`: `cur = cur ? cur + "/" + part : part`, then
`if (cur && !files.has(cur)) files.set(cur, { type: "directory", ... })`. -/
def ensureParentGo (now : Nat) : Store → String → List String → Store
  | files, _, [] => files
  | files, cur, part :: rest =>
    let cur2 := if cur == "" then part else cur ++ "/" ++ part
    let files2 := if cur2 != "" && !(mapHas files cur2)
      then mapSet files cur2 (.directory now) else files
    ensureParentGo now files2 cur2 rest

/-- Source `ensureParent`: split the normalized path on `"/"`, drop the last
segment, and walk the accumulated prefixes creating missing directories. -/
def ensureParent (files : Store) (fp : String) (now : Nat) : Store :=
  ensureParentGo now files "" ((splitSlash (normalizePath fp)).dropLast)

/-- Source `readFile`: look up the normalized key; throw `ENOENT` (modelled as
`Except.error ()`) when the entry is missing or not a file; otherwise return
`e.content ?? ""`.  The store component is returned unchanged because the
source never mutates it here. -/
def readFile (files : Store) (p : String) : Store × Except Unit String :=
  (files,
    match mapGet files (normalizePath p) with
    | some (.file c _) => .ok (c.getD "")
    | _ => .error ())

/-- Source `writeFile`: normalize, ensure parents, then set a file entry. -/
def writeFile (files : Store) (p content : String) (now : Nat) : Store :=
  let np := normalizePath p
  let files2 := ensureParent files np now
  mapSet files2 np (.file (some content) now)

/-- Source `exists`: membership of the normalized key. -/
def «exists» (files : Store) (p : String) : Bool := mapHas files (normalizePath p)

/-- Source `unlink`: throw `ENOENT` (`Except.error ()`, store unchanged) when
the normalized key is absent; otherwise delete it. -/
def unlink (files : Store) (p : String) : Store × Except Unit Unit :=
  let np := normalizePath p
  if mapHas files np then (mapDelete files np, .ok ()) else (files, .error ())

/-- Source `mkdir`: when `recursive`, run `ensureParent(np + "/x")`; then set
the normalized path itself to a directory entry. -/
def mkdir (files : Store) (p : String) (recursive : Bool) (now : Nat) : Store :=
  let np := normalizePath p
  let files2 := if recursive then ensureParent files (np ++ "/x") now else files
  mapSet files2 np (.directory now)

/-- Scan of source `readdir`: for each key starting with the prefix and
different from the normalized path, take the first segment of the remainder
and add it to the (insertion-ordered, deduplicated) result when non-empty. -/
def readdirGo (np pre : String) : List String → List String → List String
  | entries, [] => entries
  | entries, key :: rest =>
    let entries2 :=
      if pre.data.isPrefixOf key.data && key != np then
        let after := String.mk (key.data.drop pre.data.length)
        let name := (splitSlash after).headD ""
        if name != "" && !(entries.contains name) then entries ++ [name] else entries
      else entries
    readdirGo np pre entries2 rest

/-- Source `readdir`: prefix is `np + "/"`, or the empty prefix when the
normalized path is empty (the root). -/
def readdir (files : Store) (p : String) : List String :=
  let np := normalizePath p
  let pre := if np == "" then "" else np ++ "/"
  readdirGo np pre [] (mapKeys files)

/-- Source `reset`: clears the map. -/
def reset (_ : Store) : Store := []

/-- One call of the mutating public API, used to reason about the stores an
instance can reach: `writeFile`, `mkdir`, or `unlink` (whose caller keeps the
store component whether or not the call threw). -/
inductive FsOp where
  | write (p c : String) (now : Nat)
  | makeDir (p : String) (recursive : Bool) (now : Nat)
  | remove (p : String)

/-- Apply one operation to the store. -/
def applyOp (st : Store) : FsOp → Store
  | .write p c n => writeFile st p c n
  | .makeDir p r n => mkdir st p r n
  | .remove p => (unlink st p).1

/-- Apply a call sequence in order. -/
def applyOps (st : Store) (ops : List FsOp) : Store := ops.foldl applyOp st

/-- A string consisting only of slashes and backslashes (exactly the strings
`normalizePath` collapses to the empty key). -/
def allSlash (p : String) : Bool := p.data.all (fun c => c == '/' || c == '\\')

/-- The call does not name the root/empty key: `writeFile` and `mkdir` are not
invoked with an all-slash path (`unlink` is unrestricted). -/
def opAvoidsRoot : FsOp → Bool
  | .write p _ _ => !(allSlash p)
  | .makeDir p _ _ => !(allSlash p)
  | .remove _ => true

/-! ### Lemmas about the map operations -/

theorem mapHas_cons (e : String × MockFsEntry) (m : Store) (k : String) :
    mapHas (e :: m) k = (e.1 == k || mapHas m k) := by
  simp [mapHas]

theorem mapGet_cons (e : String × MockFsEntry) (m : Store) (k : String) :
    mapGet (e :: m) k = if e.1 == k then some e.2 else mapGet m k := by
  unfold mapGet
  rw [List.find?]
  by_cases h : e.1 == k <;> simp [h]

theorem mapHas_eq_isSome (m : Store) (k : String) :
    mapHas m k = (mapGet m k).isSome := by
  induction m with
  | nil => rfl
  | cons e t ih =>
    rw [mapHas_cons, mapGet_cons]
    by_cases h : e.1 == k <;> simp [h, ih]

theorem mapGet_mapSet_self (m : Store) (k : String) (v : MockFsEntry) :
    mapGet (mapSet m k v) k = some v := by
  induction m with
  | nil => simp [mapSet, mapGet]
  | cons e t ih =>
    cases he : e.1 == k with
    | true => simp [mapSet, he, mapGet_cons]
    | false => simp [mapSet, he, mapGet_cons, ih]

theorem mapGet_mapSet_ne (m : Store) (k : String) (v : MockFsEntry) (k0 : String)
    (h : k ≠ k0) :
    mapGet (mapSet m k v) k0 = mapGet m k0 := by
  induction m with
  | nil => simp [mapSet, mapGet, h]
  | cons e t ih =>
    cases he : e.1 == k with
    | true =>
      have he2 : e.1 = k := by simpa using he
      simp [mapSet, he, mapGet_cons, he2, h]
    | false => simp [mapSet, he, mapGet_cons, ih]

theorem mapHas_mapSet_ne (m : Store) (k : String) (v : MockFsEntry) (k0 : String)
    (h : k ≠ k0) :
    mapHas (mapSet m k v) k0 = mapHas m k0 := by
  rw [mapHas_eq_isSome, mapHas_eq_isSome, mapGet_mapSet_ne m k v k0 h]

theorem mapGet_mapDelete_self (m : Store) (k : String) :
    mapGet (mapDelete m k) k = none := by
  induction m with
  | nil => rfl
  | cons e t ih =>
    simp only [mapDelete, List.filter_cons] at ih ⊢
    cases he : e.1 != k with
    | false => simpa [he] using ih
    | true =>
      have hk : (e.1 == k) = false := by simpa [bne] using he
      simp [he, mapGet_cons, hk, ih]

theorem mapGet_mapDelete_ne (m : Store) (k k0 : String) (h : k ≠ k0) :
    mapGet (mapDelete m k) k0 = mapGet m k0 := by
  induction m with
  | nil => rfl
  | cons e t ih =>
    simp only [mapDelete, List.filter_cons] at ih ⊢
    cases he : e.1 != k with
    | false =>
      have he2 : e.1 = k := by simpa [bne] using he
      have h0 : (e.1 == k0) = false := by rw [he2]; simpa using h
      simp [he, mapGet_cons, h0, ih]
    | true => simp [he, mapGet_cons, ih]

theorem mapHas_mapDelete_self (m : Store) (k : String) :
    mapHas (mapDelete m k) k = false := by
  rw [mapHas_eq_isSome, mapGet_mapDelete_self]
  rfl

theorem mapHas_mapDelete_ne (m : Store) (k k0 : String) (h : k ≠ k0) :
    mapHas (mapDelete m k) k0 = mapHas m k0 := by
  rw [mapHas_eq_isSome, mapHas_eq_isSome, mapGet_mapDelete_ne m k k0 h]

theorem foldl_setFiles_mapGet (fl : List (String × String)) (m : Store) (k : String)
    (now : Nat) :
    mapGet (fl.foldl (fun m2 fc => mapSet m2 (normalizePath fc.1) (.file (some fc.2) now)) m) k =
      match (fl.filter (fun fc => normalizePath fc.1 == k)).getLast? with
      | some fc => some (.file (some fc.2) now)
      | none => mapGet m k := by
  induction fl generalizing m with
  | nil => rfl
  | cons fc tl ih =>
    rw [List.foldl_cons, ih, List.filter_cons]
    cases hk : normalizePath fc.1 == k with
    | false =>
      have hne : normalizePath fc.1 ≠ k := ne_of_beq_false hk
      rw [if_neg (by simp [hk])]
      cases hl : (tl.filter (fun fc => normalizePath fc.1 == k)).getLast? with
      | none => simp [mapGet_mapSet_ne m (normalizePath fc.1) (.file (some fc.2) now) k hne]
      | some fc2 => simp
    | true =>
      have hk2 : normalizePath fc.1 = k := eq_of_beq hk
      rw [if_pos rfl]
      cases hfl : tl.filter (fun fc => normalizePath fc.1 == k) with
      | nil => simp [hk2, mapGet_mapSet_self]
      | cons a l =>
        simp only [List.getLast?_cons_cons]
        cases hgl : (a :: l).getLast? with
        | some x => rfl
        | none =>
          have hs := List.getLast?_isSome (l := a :: l)
          rw [hgl] at hs
          simp at hs

theorem normalizePath_eq_empty_iff (p : String) :
    (normalizePath p = "") ↔ allSlash p = true := by
  have h1 : normalizePath p = "" ↔
      ((p.data.map (fun c => if c == '\\' then '/' else c)).reverse.dropWhile
        (fun c => c == '/')).reverse = [] := by
    constructor
    · intro h
      exact congrArg String.data h
    · intro h
      unfold normalizePath
      rw [h]
  rw [h1, List.reverse_eq_nil_iff, List.dropWhile_eq_nil_iff]
  unfold allSlash
  rw [List.all_eq_true]
  simp only [List.mem_reverse, List.mem_map, forall_exists_index, and_imp]
  constructor
  · intro h c hc
    by_cases hb : c = '\\'
    · rw [hb]
      decide
    · have hbeq : (c == '\\') = false := beq_eq_false_iff_ne.mpr hb
      have := h c c hc (by rw [hbeq]; rfl)
      simp [this]
  · intro h x c hc hx
    by_cases hb : c = '\\'
    · rw [← hx, hb]
      decide
    · have hbeq : (c == '\\') = false := beq_eq_false_iff_ne.mpr hb
      have hcp := h c hc
      rw [hbeq, Bool.or_false] at hcp
      rw [← hx, hbeq]
      simpa using hcp

theorem mapHas_mapDelete_false (m : Store) (k' k : String) (h : mapHas m k = false) :
    mapHas (mapDelete m k') k = false := by
  by_cases hq : k' = k
  · rw [hq, mapHas_mapDelete_self]
  · rw [mapHas_mapDelete_ne m k' k hq]
    exact h

theorem ensureParentGo_no_empty (now : Nat) (parts : List String) (st : Store) (cur : String)
    (h : mapHas st "" = false) :
    mapHas (ensureParentGo now st cur parts) "" = false := by
  induction parts generalizing st cur with
  | nil => exact h
  | cons part rest ih =>
    rw [ensureParentGo]
    apply ih
    generalize (if cur == "" then part else cur ++ "/" ++ part) = cur2
    split
    · next hcond =>
      simp only [Bool.and_eq_true] at hcond
      have hne : cur2 ≠ "" := bne_iff_ne.mp hcond.1
      rw [mapHas_mapSet_ne _ _ _ _ hne]
      exact h
    · exact h

theorem writeFile_no_empty (st : Store) (p c : String) (n : Nat)
    (hp : normalizePath p ≠ "") (h : mapHas st "" = false) :
    mapHas (writeFile st p c n) "" = false := by
  unfold writeFile ensureParent
  rw [mapHas_mapSet_ne _ _ _ _ hp]
  exact ensureParentGo_no_empty n _ st "" h

theorem mkdir_no_empty (st : Store) (p : String) (r : Bool) (n : Nat)
    (hp : normalizePath p ≠ "") (h : mapHas st "" = false) :
    mapHas (mkdir st p r n) "" = false := by
  unfold mkdir ensureParent
  rw [mapHas_mapSet_ne _ _ _ _ hp]
  split
  · exact ensureParentGo_no_empty n _ st "" h
  · exact h

theorem unlink_no_empty (st : Store) (p : String) (h : mapHas st "" = false) :
    mapHas (unlink st p).1 "" = false := by
  by_cases hq : mapHas st (normalizePath p) = true
  · simp only [unlink, hq, if_true]
    exact mapHas_mapDelete_false st (normalizePath p) "" h
  · have hq2 : mapHas st (normalizePath p) = false := by simpa using hq
    simp only [unlink, hq2]
    simpa using h

theorem applyOps_no_empty (ops : List FsOp) (st : Store)
    (hst : mapHas st "" = false) (h : ∀ op ∈ ops, opAvoidsRoot op = true) :
    mapHas (applyOps st ops) "" = false := by
  induction ops generalizing st with
  | nil => exact hst
  | cons op rest ih =>
    have h1 := h op (List.mem_cons_self op rest)
    have h2 : ∀ o ∈ rest, opAvoidsRoot o = true := fun o ho => h o (List.mem_cons_of_mem _ ho)
    have hstep : mapHas (applyOp st op) "" = false := by
      cases op with
      | write p c n =>
        have ha : allSlash p = false := by
          simpa [opAvoidsRoot] using h1
        have hp : normalizePath p ≠ "" := by
          rw [Ne, normalizePath_eq_empty_iff, ha]
          exact Bool.false_ne_true
        exact writeFile_no_empty st p c n hp hst
      | makeDir p r n =>
        have ha : allSlash p = false := by
          simpa [opAvoidsRoot] using h1
        have hp : normalizePath p ≠ "" := by
          rw [Ne, normalizePath_eq_empty_iff, ha]
          exact Bool.false_ne_true
        exact mkdir_no_empty st p r n hp hst
      | remove p => exact unlink_no_empty st p hst
    rw [applyOps, List.foldl_cons]
    exact ih (applyOp st op) hstep h2

/-! ### Claim theorems -/

/-- C1 (code bug): on the empty store, `writeFile("/a/b/c.txt", "x")` creates the
ancestor directory keys without the leading slash (`"a"` and `"a/b"`), so
`exists("/a")` and `exists("/a/b")` are `false`, contradicting the claim and
the package README; `readdir("/a")` does contain `"b"`.  The final conjunct
exhibits the exact keys of the resulting store. -/
theorem writeFile_autovivification_divergence :
    «exists» (writeFile [] "/a/b/c.txt" "x" 0) "/a" = false ∧
    «exists» (writeFile [] "/a/b/c.txt" "x" 0) "/a/b" = false ∧
    readdir (writeFile [] "/a/b/c.txt" "x" 0) "/a" = ["b"] ∧
    mapKeys (writeFile [] "/a/b/c.txt" "x" 0) = ["a", "a/b", "/a/b/c.txt"] := by
  decide

/-- C2 (code bug): for a store built with `initialFiles = {"/config.json": "{}"}`,
`readFile("/config.json")` does return `"{}"`, but `readdir("/")` is the empty
list rather than containing `"config.json"`: the root scan uses the empty
prefix, the remainder of the key `"/config.json"` starts with `"/"`, so its
first segment is empty and gets discarded. -/
theorem initialFiles_readFile_readdir_root :
    (readFile (createMockFs [] [("/config.json", "\x7b\x7d")] 0) "/config.json").2 =
      Except.ok "\x7b\x7d" ∧
    readdir (createMockFs [] [("/config.json", "\x7b\x7d")] 0) "/" = [] :=
  ⟨rfl, by decide⟩

/-- C3 (code bug): on the empty store, `mkdir("/x/y/z", {recursive: true})` makes
`exists("/x/y/z")` true but `exists("/x")` and `exists("/x/y")` false: the
recursively created ancestor keys `"x"` and `"x/y"` lack the leading slash. -/
theorem mkdir_recursive_divergence :
    «exists» (mkdir [] "/x/y/z" true 0) "/x" = false ∧
    «exists» (mkdir [] "/x/y/z" true 0) "/x/y" = false ∧
    «exists» (mkdir [] "/x/y/z" true 0) "/x/y/z" = true ∧
    mapKeys (mkdir [] "/x/y/z" true 0) = ["x", "x/y", "x/y/z", "/x/y/z"] := by
  decide

/-- C4: for every store, path and content, `writeFile(P, C)` followed immediately
by `readFile(P)` succeeds and returns exactly `C`. -/
theorem writeFile_readFile_roundtrip (st : Store) (p c : String) (now : Nat) :
    (readFile (writeFile st p c now) p).2 = Except.ok c := by
  unfold readFile writeFile
  rw [mapGet_mapSet_self]
  rfl

/-- C5: two paths that differ only in separator style (backslash vs forward
slash) or in trailing separators normalize to the same key (hypothesis), and
then `exists` gives the same answer on both and `readFile` gives the same
result on both (both fail, or both return the same content). -/
theorem normalized_paths_equal_observations (st : Store) (p1 p2 : String)
    (h : normalizePath p1 = normalizePath p2) :
    «exists» st p1 = «exists» st p2 ∧ (readFile st p1).2 = (readFile st p2).2 := by
  unfold «exists» readFile
  rw [h]
  exact ⟨rfl, rfl⟩

/-- C5 witness: `"\a\b"` and `"/a/b/"` differ only in separator style and a
trailing separator; on a store holding the file `/a/b`, both observations
agree (and `readFile` succeeds on both spellings). -/
theorem normalized_paths_equal_observations_witness :
    normalizePath "\\a\\b" = normalizePath "/a/b/" ∧
    («exists» (writeFile [] "/a/b" "hi" 0) "\\a\\b" =
      «exists» (writeFile [] "/a/b" "hi" 0) "/a/b/" ∧
     (readFile (writeFile [] "/a/b" "hi" 0) "\\a\\b").2 =
      (readFile (writeFile [] "/a/b" "hi" 0) "/a/b/").2) :=
  ⟨rfl, normalized_paths_equal_observations (writeFile [] "/a/b" "hi" 0) "\\a\\b" "/a/b/" rfl⟩

/-- C6: `readFile(P)` fails with `NotFound` iff the normalized key is absent or
holds a Directory entry; on a File entry it returns the content string (the
empty string when the content field is absent); and it leaves the store
unchanged in all cases. -/
theorem readFile_not_found_iff (st : Store) (p : String) :
    ((readFile st p).2 = Except.error () ↔
      mapGet st (normalizePath p) = none ∨
      ∃ m, mapGet st (normalizePath p) = some (.directory m)) ∧
    (∀ c m, mapGet st (normalizePath p) = some (.file c m) →
      (readFile st p).2 = Except.ok (c.getD "")) ∧
    (readFile st p).1 = st := by
  refine ⟨?_, ?_, rfl⟩
  · unfold readFile
    cases h : mapGet st (normalizePath p) with
    | none => simp
    | some e => cases e with
      | file c m => simp
      | directory m => simp
  · intro c m h
    unfold readFile
    rw [h]

/-- C6 witness: on the two-entry store with file `/a` (content `"hi"`) and
directory `/d`, `readFile` returns `"hi"` at `/a`, fails at `/d`, and leaves
the store unchanged. -/
theorem readFile_not_found_iff_witness :
    (readFile [("/a", .file (some "hi") 0), ("/d", .directory 0)] "/a").2 = Except.ok "hi" ∧
    (readFile [("/a", .file (some "hi") 0), ("/d", .directory 0)] "/d").2 = Except.error () ∧
    (readFile [("/a", .file (some "hi") 0), ("/d", .directory 0)] "/a").1 =
      [("/a", .file (some "hi") 0), ("/d", .directory 0)] :=
  ⟨(readFile_not_found_iff [("/a", .file (some "hi") 0), ("/d", .directory 0)] "/a").2.1
      (some "hi") 0 rfl,
   (readFile_not_found_iff [("/a", .file (some "hi") 0), ("/d", .directory 0)] "/d").1.mpr
      (Or.inr ⟨0, rfl⟩),
   (readFile_not_found_iff [("/a", .file (some "hi") 0), ("/d", .directory 0)] "/a").2.2⟩

/-- C7: when an entry exists at `P`'s normalized key, `unlink(P)` succeeds,
`exists(P)` is then false, and a second `unlink(P)` fails with `NotFound`
while leaving the store unchanged. -/
theorem unlink_then_exists_false_then_enoent (st : Store) (p : String)
    (h : mapHas st (normalizePath p) = true) :
    (unlink st p).2 = Except.ok () ∧
    «exists» (unlink st p).1 p = false ∧
    (unlink (unlink st p).1 p).2 = Except.error () ∧
    (unlink (unlink st p).1 p).1 = (unlink st p).1 := by
  have h2 : mapHas (mapDelete st (normalizePath p)) (normalizePath p) = false := by
    rw [mapHas_eq_isSome, mapGet_mapDelete_self]
    rfl
  unfold unlink «exists»
  simp [h, h2]

/-- C7 witness: writing `/f.txt` then unlinking it twice shows the first
`unlink` succeeding, `exists` turning false, and the second `unlink` failing
without changing the store. -/
theorem unlink_then_exists_false_then_enoent_witness :
    mapHas (writeFile [] "/f.txt" "x" 0) (normalizePath "/f.txt") = true ∧
    ((unlink (writeFile [] "/f.txt" "x" 0) "/f.txt").2 = Except.ok () ∧
     «exists» (unlink (writeFile [] "/f.txt" "x" 0) "/f.txt").1 "/f.txt" = false ∧
     (unlink (unlink (writeFile [] "/f.txt" "x" 0) "/f.txt").1 "/f.txt").2 = Except.error () ∧
     (unlink (unlink (writeFile [] "/f.txt" "x" 0) "/f.txt").1 "/f.txt").1 =
       (unlink (writeFile [] "/f.txt" "x" 0) "/f.txt").1) :=
  ⟨by decide, unlink_then_exists_false_then_enoent (writeFile [] "/f.txt" "x" 0) "/f.txt"
      (by decide)⟩

/-- C9: `unlink` performs no type check: on a Directory entry it succeeds, and
it removes exactly the normalized key — every other key (descendants of the
deleted directory included) keeps its entry. -/
theorem unlink_directory_frame (st : Store) (p : String) (mt : Nat)
    (h : mapGet st (normalizePath p) = some (.directory mt)) :
    (unlink st p).2 = Except.ok () ∧
    mapGet (unlink st p).1 (normalizePath p) = none ∧
    ∀ k, k ≠ normalizePath p → mapGet (unlink st p).1 k = mapGet st k := by
  have hh : mapHas st (normalizePath p) = true := by
    rw [mapHas_eq_isSome, h]
    rfl
  unfold unlink
  simp only [hh, if_true]
  refine ⟨trivial, mapGet_mapDelete_self st (normalizePath p), ?_⟩
  intro k hk
  exact mapGet_mapDelete_ne st (normalizePath p) k (Ne.symm hk)

/-- C9 witness: deleting the directory `/d` from a store that also holds the
descendant file `/d/f.txt` succeeds, removes `/d`, and leaves `/d/f.txt`
intact. -/
theorem unlink_directory_frame_witness :
    mapGet [("/d", .directory 0), ("/d/f.txt", .file (some "x") 1)] (normalizePath "/d") =
      some (.directory 0) ∧
    ((unlink [("/d", .directory 0), ("/d/f.txt", .file (some "x") 1)] "/d").2 =
      Except.ok () ∧
     mapGet (unlink [("/d", .directory 0), ("/d/f.txt", .file (some "x") 1)] "/d").1
      (normalizePath "/d") = none ∧
     mapGet (unlink [("/d", .directory 0), ("/d/f.txt", .file (some "x") 1)] "/d").1
      "/d/f.txt" =
      mapGet [("/d", .directory 0), ("/d/f.txt", .file (some "x") 1)] "/d/f.txt") :=
  ⟨rfl,
   (unlink_directory_frame [("/d", .directory 0), ("/d/f.txt", .file (some "x") 1)]
      "/d" 0 rfl).1,
   (unlink_directory_frame [("/d", .directory 0), ("/d/f.txt", .file (some "x") 1)]
      "/d" 0 rfl).2.1,
   (unlink_directory_frame [("/d", .directory 0), ("/d/f.txt", .file (some "x") 1)]
      "/d" 0 rfl).2.2 "/d/f.txt" (by decide)⟩

/-- C8: `createMockFs` inserts initial directories first and initial files
second, so when a path occurs (after normalization) both in `initialDirs` and
in `initialFiles` — with the file pair the last file entry for that key — the
constructed store holds a File entry with the file's content at that key. -/
theorem createMockFs_file_wins (dirs : List String) (fl : List (String × String))
    (now : Nat) (p q c : String)
    (_hd : (dirs.map normalizePath).contains (normalizePath p) = true)
    (hf : (fl.filter (fun fc => normalizePath fc.1 == normalizePath p)).getLast? =
      some (q, c)) :
    mapGet (createMockFs dirs fl now) (normalizePath p) =
      some (.file (some c) now) := by
  unfold createMockFs
  rw [foldl_setFiles_mapGet, hf]

/-- C8 witness: `"/src"` listed both as an initial directory and (with content
`"c0"`) as an initial file yields a File entry at key `"/src"`. -/
theorem createMockFs_file_wins_witness :
    ((["/src"].map normalizePath).contains (normalizePath "/src") = true) ∧
    ((([("/src", "c0")] : List (String × String)).filter
        (fun fc => normalizePath fc.1 == normalizePath "/src")).getLast? =
      some ("/src", "c0")) ∧
    mapGet (createMockFs ["/src"] [("/src", "c0")] 0) (normalizePath "/src") =
      some (.file (some "c0") 0) :=
  ⟨by decide, by decide,
   createMockFs_file_wins ["/src"] [("/src", "c0")] 0 "/src" "/src" "c0"
    (by decide) (by decide)⟩

/-- C10: `normalizePath` sends every all-slash/backslash string (in particular
`"/"`) to the empty string; `exists("/")` therefore reports membership of the
empty-string key; and on any store built from the empty store by `writeFile`,
`mkdir` and `unlink` calls in which neither `writeFile` nor `mkdir` ever
received an all-slash path, `exists("/")` is `false` — no matter which file
entries exist under the root. -/
theorem exists_root_reports_empty_key :
    (∀ p : String, allSlash p = true → normalizePath p = "") ∧
    (∀ st : Store, «exists» st "/" = mapHas st "") ∧
    (∀ ops : List FsOp, (∀ op ∈ ops, opAvoidsRoot op = true) →
      «exists» (applyOps [] ops) "/" = false) := by
  refine ⟨?_, ?_, ?_⟩
  · intro p hp
    exact (normalizePath_eq_empty_iff p).mpr hp
  · intro st
    rfl
  · intro ops h
    show mapHas (applyOps [] ops) (normalizePath "/") = false
    exact applyOps_no_empty ops [] rfl h

/-- C10 witness: `"//\"` normalizes to the empty string, and after writing
`/a.txt` and recursively creating `/d/e` starting from the empty store —
so file entries do exist under the root — `exists("/")` is still `false`. -/
theorem exists_root_reports_empty_key_witness :
    (allSlash "//\\" = true ∧ normalizePath "//\\" = "") ∧
    «exists» (applyOps [] [FsOp.write "/a.txt" "x" 0, FsOp.makeDir "/d/e" true 1]) "/" =
      false :=
  ⟨⟨by decide, exists_root_reports_empty_key.1 "//\\" (by decide)⟩,
   exists_root_reports_empty_key.2.2 [FsOp.write "/a.txt" "x" 0, FsOp.makeDir "/d/e" true 1]
    (by decide)⟩

end MockFs
